import Mathlib

/-!
Verification of the service-status Discord bot.

A shallow embedding of `serviceproviders.py`: the status-snapshot data
model, the notification (embed) renderer, the three-read status fetch,
the incident-polling tick over the `webhooks` table, the subscription
upsert/toggle operations, the owner-only command gate, and the
bulk-send loops.  External effects (HTTP reads, webhook POSTs, Discord
sends) are supplied as explicit environment functions; exceptions that
the Python code can raise are modelled with `Except`/`Option`.
-/

/-- One entry of an incident's `incident_updates` list; `body` is `none`
when the `body` key is absent. -/
structure IncidentUpdate where
  body : Option String
deriving DecidableEq

/-- One incident object from `incidents.json`; every field read with
`.get` is an `Option` (`none` = key absent).  `incident_updates = none`
models an absent key (for which the code substitutes `[{}]`), while
`some []` models a present-but-empty list (for which indexing `[0]`
raises). -/
structure Incident where
  id : Option String
  name : Option String
  status : Option String
  incident_updates : Option (List IncidentUpdate)
deriving DecidableEq

/-- One component object from `components.json`. -/
structure Component where
  name : Option String
  status : Option String
deriving DecidableEq

/-- The inner `status` object of `status.json`. -/
structure StatusInner where
  description : Option String
  indicator : Option String
deriving DecidableEq

/-- The whole `status.json` body; `status = none` models a body on which
`['status']` raises. -/
structure StatusBody where
  status : Option StatusInner
deriving DecidableEq

/-- The dict returned by `get_service_data`: the raw status body plus the
extracted `incidents` and `components` lists. -/
structure ServiceData where
  status : StatusBody
  incidents : List Incident
  components : List Component
deriving DecidableEq

/-- The parts of a `discord.Embed` the bot fills in (the wall-clock
timestamp and footer are omitted). -/
structure Embed where
  title : String
  description : String
  color : Nat
  fields : List (String × String)
deriving DecidableEq

/-- Python's `str.capitalize()`: first character upper-cased, the rest
lower-cased. -/
def pyCapitalize (s : String) : String :=
  (s.take 1).toUpper ++ (s.drop 1).toLower

/-- Reading a dict key with `[...]`: raises (`.error`) when absent. -/
def ofOption : Option α → Except Unit α
  | none => .error ()
  | some a => .ok a

/-- `incident.get('incident_updates', [{}])[0].get('body', '')`:
absent key defaults to `[{}]` whose first element yields `""`; a present
empty list raises `IndexError`. -/
def latestUpdateBody (inc : Incident) : Except Unit String :=
  match inc.incident_updates with
  | none => .ok ""
  | some [] => .error ()
  | some (u :: _) => .ok (u.body.getD "")

/-- The text accumulated by the `for incident in incidents` loop of
`create_status_embed`: a name/status header per incident and, when the
latest update body is non-empty, that body truncated to 200 characters
with an ellipsis marker. -/
def incidentBlock : List Incident → Except Unit String
  | [] => .ok ""
  | inc :: rest => do
    let u ← latestUpdateBody inc
    let tail ← incidentBlock rest
    let header := "**" ++ inc.name.getD "Unnamed incident" ++ "** (" ++ inc.status.getD "unknown" ++ ")\n"
    let upart := if u = "" then "" else (if u.length > 200 then u.take 200 ++ "..." else u) ++ "\n\n"
    .ok (header ++ upart ++ tail)

/-- The text accumulated by the bad-components loop: one bullet line per
component, raising when `name` or `status` is absent (the code indexes
both with `[...]`). -/
def componentBlock : List Component → Except Unit String
  | [] => .ok ""
  | c :: rest =>
    match c.name, c.status with
    | some n, some st => do
      let tail ← componentBlock rest
      .ok ("• " ++ n ++ ": " ++ st ++ "\n" ++ tail)
    | _, _ => .error ()

/-- `StatusBot.create_status_embed`: renders a snapshot into an embed.
Dict indexing of the status body may raise; at most the first 3
incidents are rendered; components whose status is not `"operational"`
are listed (at most 5). -/
def create_status_embed (service_name : String) (data : ServiceData) : Except Unit Embed := do
  let st ← ofOption data.status.status
  let description ← ofOption st.description
  let indicator ← ofOption st.indicator
  let color : Nat := if indicator = "none" then 0x00ff00 else if indicator = "minor" then 0xffff00 else 0xff0000
  let incidents := data.incidents.take 3
  let incidentField ←
    if incidents.isEmpty then
      pure ("Incidents", "No current incidents")
    else do
      let t ← incidentBlock incidents
      pure ("Recent Incidents", t)
  let bad := data.components.filter (fun c => ¬(c.status = some "operational"))
  let compField ←
    if bad.isEmpty then
      pure ("Components", "All systems operational")
    else do
      let t ← componentBlock (bad.take 5)
      pure ("Affected Components", t)
  pure { title := pyCapitalize service_name ++ " Status"
         description := "**Overall Status:** " ++ description
         color := color
         fields := [incidentField, compField] }

/-- The fixed `SERVICES` base-URL table. -/
def SERVICES : List (String × String) :=
  [("vercel", "https://vercel.statuspage.io/api/v2"),
   ("cloudflare", "https://www.cloudflarestatus.com/api/v2"),
   ("netlify", "https://www.netlifystatus.com/api/v2")]

/-- The parsed `incidents.json` body; `incidents = none` models an absent
key (the code substitutes `[]` via `.get`). -/
structure IncidentsBody where
  incidents : Option (List Incident)
deriving DecidableEq

/-- The parsed `components.json` body. -/
structure ComponentsBody where
  components : Option (List Component)
deriving DecidableEq

/-- Outcomes of the three HTTP reads of one `get_service_data` call;
`none` for a read means that read raised (network error, non-2xx
without a parseable body, malformed body). -/
structure FetchEnv where
  statusRead : Option StatusBody
  incidentsRead : Option IncidentsBody
  componentsRead : Option ComponentsBody

/-- `StatusBot.get_service_data`: `None` for an unknown service; the
three reads run inside one `try`, so a raising read makes the whole
call return `None`; otherwise the snapshot dict is assembled with
`.get` defaults for the two lists. -/
def get_service_data (env : FetchEnv) (service_name : String) : Option ServiceData :=
  match (SERVICES.find? (fun p => p.1 == service_name)).map (·.2) with
  | none => none
  | some _url =>
    match env.statusRead with
    | none => none
    | some st =>
      match env.incidentsRead with
      | none => none
      | some ib =>
        match env.componentsRead with
        | none => none
        | some cb => some ⟨st, ib.incidents.getD [], cb.components.getD []⟩

/-- One row of the `webhooks` table. -/
structure WebhookRow where
  guild_id : Int
  channel_id : Int
  webhook_url : String
  service : String
  ping_role_id : Option Int
  enabled : Bool
  last_incident_id : Option String
deriving DecidableEq

/-- The primary key `(guild_id, service)` of a row. -/
def keyOf (r : WebhookRow) : Int × String :=
  (r.guild_id, r.service)

/-- The table's `PRIMARY KEY (guild_id, service)` invariant: pairwise
distinct keys. -/
def pairwiseKeys (db : List WebhookRow) : Prop :=
  db.Pairwise (fun a b => keyOf a ≠ keyOf b)

/-- `SELECT ... WHERE guild_id = ? AND service = ?` followed by
`fetchone()`: the first row with the given key. -/
def findRow (db : List WebhookRow) (k : Int × String) : Option WebhookRow :=
  db.find? (fun r => keyOf r == k)

/-- `UPDATE webhooks SET last_incident_id = ? WHERE guild_id = ? AND
service = ?`. -/
def dbUpdateLastIncident (db : List WebhookRow) (k : Int × String) (lid : Option String) : List WebhookRow :=
  db.map (fun r => if keyOf r = k then { r with last_incident_id := lid } else r)

/-- The per-tick environment: `fetch` is the outcome of
`get_service_data` for a service name, `post` the outcome of the
webhook POST for a URL (`none` = the POST raised, `some s` = HTTP
status `s`). -/
structure TickEnv where
  fetch : String → Option ServiceData
  post : String → Option Nat

/-- What processing one enabled config row did. -/
inductive CfgResult where
  | skip
  | renderError
  | postFailed
  | postAccepted (lid : Option String)
deriving DecidableEq

/-- The body of the `for config in webhook_configs` loop of
`check_and_post_incidents`, for one row: fetch; skip on no data or no
incidents or an unchanged newest incident id; otherwise render the
embed (which may raise, uncaught) and POST, updating the marker only on
HTTP 204. -/
def processCfg (env : TickEnv) (cfg : WebhookRow) : CfgResult :=
  match env.fetch cfg.service with
  | none => .skip
  | some data =>
    match data.incidents with
    | [] => .skip
    | latest :: _ =>
      if latest.id = cfg.last_incident_id then .skip
      else
        match create_status_embed cfg.service data with
        | .error _ => .renderError
        | .ok _ =>
          if env.post cfg.webhook_url = some 204 then .postAccepted latest.id
          else .postFailed

/-- Observable outcome of one tick: the table after the tick's committed
updates, the keys for which a status fetch was performed, the POSTs
attempted (key, accepted?), and whether the loop ran to completion
(an embed-rendering exception aborts it). -/
structure TickResult where
  db : List WebhookRow
  fetches : List (Int × String)
  posts : List ((Int × String) × Bool)
  completed : Bool
deriving DecidableEq

/-- The loop of `check_and_post_incidents` over the `fetchall()`
snapshot of enabled rows, threading the table through the per-row
`UPDATE`s (each committed immediately). -/
def tickAux (env : TickEnv) : List WebhookRow → List WebhookRow → TickResult
  | [], db => ⟨db, [], [], true⟩
  | cfg :: rest, db =>
    match processCfg env cfg with
    | .renderError => ⟨db, [keyOf cfg], [], false⟩
    | .skip =>
      let r := tickAux env rest db
      ⟨r.db, keyOf cfg :: r.fetches, r.posts, r.completed⟩
    | .postFailed =>
      let r := tickAux env rest db
      ⟨r.db, keyOf cfg :: r.fetches, (keyOf cfg, false) :: r.posts, r.completed⟩
    | .postAccepted lid =>
      let r := tickAux env rest (dbUpdateLastIncident db (keyOf cfg) lid)
      ⟨r.db, keyOf cfg :: r.fetches, (keyOf cfg, true) :: r.posts, r.completed⟩

/-- One poller tick: `SELECT * FROM webhooks WHERE enabled = 1`, then
the processing loop. -/
def tick (env : TickEnv) (db : List WebhookRow) : TickResult :=
  tickAux env (db.filter (fun r => r.enabled)) db

/-- Number of accepted (HTTP 204) webhook deliveries a tick performed
for one subscription key. -/
def countAccepted (posts : List ((Int × String) × Bool)) (k : Int × String) : Nat :=
  (posts.filter (fun p => p.1 == k && p.2 == true)).length

/-- `setup_webhook`'s store write: `INSERT OR REPLACE INTO webhooks`
keyed on `(guild_id, service)` with `enabled = 1` and
`last_incident_id = NULL`; any conflicting row is removed and the fresh
row inserted. -/
def upsertWebhook (db : List WebhookRow) (g cid : Int) (url s : String) (pr : Option Int) : List WebhookRow :=
  db.filter (fun r => ¬(keyOf r = (g, s))) ++ [⟨g, cid, url, s, pr, true, none⟩]

/-- `toggle_webhook`'s not-found reply. -/
def notFoundMsg (service : String) : String :=
  "❌ No webhook found for " ++ pyCapitalize service

/-- `toggle_webhook`'s success reply. -/
def toggledMsg (service : String) (enabled : Bool) : String :=
  "✅ " ++ pyCapitalize service ++ " webhook has been " ++ (if enabled then "enabled" else "disabled")

/-- `toggle_webhook` (after its permission guard): `SELECT enabled`
for the key; if no row, reply not-found with no write; otherwise
`UPDATE webhooks SET enabled = ?` to the negation for that key. -/
def toggle_webhook (db : List WebhookRow) (g : Int) (s : String) : List WebhookRow × String :=
  match findRow db (g, s) with
  | none => (db, notFoundMsg s)
  | some r =>
    let ns := !r.enabled
    (db.map (fun x => if keyOf x = (g, s) then { x with enabled := ns } else x), toggledMsg s ns)

/-- A slash command registered on the command tree, with whether the
`is_owner` check decorator is attached. -/
structure AppCommand where
  name : String
  ownerOnly : Bool
deriving DecidableEq

/-- The commands actually registered via `@bot.tree.command` in the
source.  `bot_stats` is defined with only `@is_owner()` and no
`@bot.tree.command` decorator, so no `botstats` command is registered. -/
def registeredCommands : List AppCommand :=
  [⟨"sendmessage", true⟩, ⟨"sendembed", true⟩, ⟨"broadcast", true⟩, ⟨"multisend", true⟩,
   ⟨"checkstatus", false⟩, ⟨"setupwebhook", false⟩, ⟨"removewebhook", false⟩,
   ⟨"listwebhooks", false⟩, ⟨"togglewebhook", false⟩]

/-- The `owner_commands` list of `on_app_command_error`. -/
def owner_commands : List String :=
  ["sendmessage", "sendembed", "broadcast", "botstats", "multisend", "spamchannel"]

/-- The reply `on_app_command_error` sends for a `CheckFailure`. -/
def checkFailureResponse (name : String) : String :=
  if name ∈ owner_commands then "❌ This command is restricted to the bot owner only."
  else "❌ You don't have permission to use this command."

/-- What an inbound interaction for a command name produces: nothing at
all (name not in the tree), a check-failure rejection reply with the
command body never run, or execution of the body. -/
inductive DispatchOutcome where
  | unknownCommand
  | rejected (msg : String)
  | executed
deriving DecidableEq

/-- Command dispatch as configured by the source: `app_commands.check`
predicates run before the callback, and `interaction.user.id ==
OWNER_ID` failing raises `CheckFailure`, handled by
`on_app_command_error`; the callback body (its sends and database
accesses) runs only in the `executed` case. -/
def dispatch (ownerId callerId : Int) (name : String) : DispatchOutcome :=
  match registeredCommands.find? (fun c => c.name == name) with
  | none => .unknownCommand
  | some c =>
    if c.ownerOnly && !(callerId == ownerId) then .rejected (checkFailureResponse name)
    else .executed

/-- Outcome of one `channel.send` attempt: success, a
`discord.Forbidden`, another `discord.HTTPException` with a status, or
any other exception. -/
inductive SendOutcome where
  | ok
  | forbidden
  | http (status : Nat)
  | err
deriving DecidableEq

/-- Observable result of an owner bulk-send loop: attempts made,
success and failure counters, and the `asyncio.sleep` durations
performed in order. -/
structure SendLoopResult where
  attempts : Nat
  sent : Nat
  failed : Nat
  sleeps : List ℚ
deriving DecidableEq

/-- The `for i in range(count)` loop of `send_message`: success bumps
`sent_count` and sleeps `delay` between messages when `delay > 0`;
`Forbidden` bumps `failed_count` and breaks; a 429 `HTTPException`
sleeps 1 second and bumps `failed_count`; other exceptions bump
`failed_count`. -/
def sendLoopAux (env : Nat → SendOutcome) (count : Nat) (delay : ℚ) : List Nat → SendLoopResult
  | [] => ⟨0, 0, 0, []⟩
  | i :: rest =>
    match env i with
    | .ok =>
      let r := sendLoopAux env count delay rest
      ⟨r.attempts + 1, r.sent + 1, r.failed, (if 0 < delay ∧ i < count - 1 then [delay] else []) ++ r.sleeps⟩
    | .forbidden => ⟨1, 0, 1, []⟩
    | .http s =>
      let r := sendLoopAux env count delay rest
      if s = 429 then ⟨r.attempts + 1, r.sent, r.failed + 1, 1 :: r.sleeps⟩
      else ⟨r.attempts + 1, r.sent, r.failed + 1, r.sleeps⟩
    | .err =>
      let r := sendLoopAux env count delay rest
      ⟨r.attempts + 1, r.sent, r.failed + 1, r.sleeps⟩

/-- Result of the `sendmessage` command: rejected by a validation guard
before any side effect, or the loop's result. -/
inductive SendCommandResult where
  | rejectedCount
  | rejectedDelay
  | ran (r : SendLoopResult)
deriving DecidableEq

/-- `send_message` (the `sendmessage` command body, owner check already
passed): count and delay validation, then the send loop. -/
def send_message (env : Nat → SendOutcome) (count : Int) (delay : ℚ) : SendCommandResult :=
  if count < 1 ∨ count > 50 then .rejectedCount
  else if delay < 0 then .rejectedDelay
  else .ran (sendLoopAux env count.toNat delay (List.range count.toNat))

/-- A guild as `multi_send` sees it: its name, whether a sendable
channel exists, and the outcome of each send attempt to it. -/
structure MSGuild where
  name : String
  hasChannel : Bool
  send : Nat → SendOutcome

/-- The `results[guild_id]` entry for an unresolvable id. -/
def notFoundEntry : String := "❌ Server not found or bot not in server"

/-- The `results[guild_id]` entry when no accessible channel exists. -/
def noChannelEntry (g : MSGuild) : String := "❌ No accessible channel in " ++ g.name

/-- `multi_send`'s inner send loop for one guild (sent, failed): every
exception (`HTTPException`, 429 or not, and anything else) bumps the
failure counters and continues — no break. -/
def msInner (send : Nat → SendOutcome) : List Nat → Nat × Nat
  | [] => (0, 0)
  | i :: rest =>
    let p := msInner send rest
    match send i with
    | .ok => (p.1 + 1, p.2)
    | _ => (p.1, p.2 + 1)

/-- The per-guild summary line `multi_send` records after its inner
loop. -/
def msGuildMsg (g : MSGuild) (sent failed count : Nat) : String :=
  if sent = count then
    "✅ " ++ g.name ++ ": " ++ toString sent ++ "/" ++ toString count ++ " sent"
  else
    "⚠️ " ++ g.name ++ ": " ++ toString sent ++ "/" ++ toString count ++ " sent, " ++ toString failed ++ " failed"

/-- Python dict assignment `results[k] = v`: overwrite in place if the
key exists, else append. -/
def dictInsert (d : List (Int × String)) (k : Int) (v : String) : List (Int × String) :=
  if d.any (fun p => p.1 == k) then d.map (fun p => if p.1 = k then (k, v) else p)
  else d ++ [(k, v)]

/-- `multi_send`'s accumulated observable state. -/
structure MSState where
  results : List (Int × String)
  total_sent : Nat
  total_failed : Nat
deriving DecidableEq

/-- The `for guild_id in guild_ids` loop of `multi_send`: an
unresolvable id records the not-found entry and counts the full
`count` as failed, then `continue`s; a guild without an accessible
channel likewise; otherwise the inner send loop runs and its summary is
recorded. -/
def msLoop (resolve : Int → Option MSGuild) (count : Nat) : List Int → MSState → MSState
  | [], st => st
  | gid :: rest, st =>
    match resolve gid with
    | none =>
      msLoop resolve count rest
        ⟨dictInsert st.results gid notFoundEntry, st.total_sent, st.total_failed + count⟩
    | some g =>
      if g.hasChannel then
        let p := msInner g.send (List.range count)
        msLoop resolve count rest
          ⟨dictInsert st.results gid (msGuildMsg g p.1 p.2 count), st.total_sent + p.1, st.total_failed + p.2⟩
      else
        msLoop resolve count rest
          ⟨dictInsert st.results gid (noChannelEntry g), st.total_sent, st.total_failed + count⟩

/-- `multi_send`'s guild loop starting from the empty results dict and
zeroed counters (validation of count, delay and the id list precedes
it). -/
def multi_send (resolve : Int → Option MSGuild) (count : Nat) (gids : List Int) : MSState :=
  msLoop resolve count gids ⟨[], 0, 0⟩

/-- Number of rows of the table carrying a given `(guild_id, service)`
key. -/
def countKey (db : List WebhookRow) (k : Int × String) : Nat :=
  (db.filter (fun r => keyOf r == k)).length

/-- The entry value the `multi_send` loop records for a given id —
determined by the environment alone. -/
def msEntryValue (resolve : Int → Option MSGuild) (count : Nat) (gid : Int) : String :=
  match resolve gid with
  | none => notFoundEntry
  | some g =>
    if g.hasChannel then
      let p := msInner g.send (List.range count)
      msGuildMsg g p.1 p.2 count
    else noChannelEntry g

/-! ## Theorems -/

/-- C4: a fetch performs three reads and a `Failure` in any one of them
makes the whole fetch return the failure value; a returned snapshot
always carries all three parts (the raw status body and the two
extracted lists), never a partial one. -/
theorem C4_fetch_all_or_nothing (env : FetchEnv) (name : String) :
    ((env.statusRead = none ∨ env.incidentsRead = none ∨ env.componentsRead = none) →
      get_service_data env name = none)
    ∧ (∀ d, get_service_data env name = some d →
        ∃ st ib cb, env.statusRead = some st ∧ env.incidentsRead = some ib ∧
          env.componentsRead = some cb ∧
          d = ⟨st, ib.incidents.getD [], cb.components.getD []⟩) := by
  obtain ⟨s, i, c⟩ := env
  constructor
  · intro h
    unfold get_service_data
    cases hl : (SERVICES.find? (fun p => p.1 == name)).map (·.2) with
    | none => rfl
    | some u =>
      rcases h with h | h | h <;> subst h
      · rfl
      · cases s with
        | none => rfl
        | some st => rfl
      · cases s with
        | none => rfl
        | some st =>
          cases i with
          | none => rfl
          | some ib => rfl
  · intro d hd
    unfold get_service_data at hd
    cases hl : (SERVICES.find? (fun p => p.1 == name)).map (·.2) with
    | none => rw [hl] at hd; exact absurd hd (by simp)
    | some u =>
      rw [hl] at hd
      cases s with
      | none => exact absurd hd (by simp)
      | some st =>
        cases i with
        | none => exact absurd hd (by simp)
        | some ib =>
          cases c with
          | none => exact absurd hd (by simp)
          | some cb => exact ⟨st, ib, cb, rfl, rfl, rfl, (Option.some.inj hd).symm⟩

/-- C4 witness: a fetch whose status read failed returns the failure
value. -/
theorem C4_fetch_all_or_nothing_witness :
    (FetchEnv.mk none (some ⟨some []⟩) (some ⟨some []⟩)).statusRead = none ∧
    get_service_data ⟨none, some ⟨some []⟩, some ⟨some []⟩⟩ "vercel" = none :=
  ⟨rfl, (C4_fetch_all_or_nothing ⟨none, some ⟨some []⟩, some ⟨some []⟩⟩ "vercel").1 (Or.inl rfl)⟩

/-- C6 (code bug): no `botstats` command is ever registered on the
command tree — `bot_stats` lacks the `@bot.tree.command` decorator — so
dispatching `botstats` finds no command and no restricted-to-owner
rejection can be produced for it, for any caller. -/
theorem C6_botstats_unregistered (ownerId callerId : Int) :
    dispatch ownerId callerId "botstats" = .unknownCommand := rfl

/-- The four registered owner-only commands do reject any non-owner
caller with the uniform restricted-to-owner reply, and the command body
is not executed. -/
theorem ownerOnly_registered_commands_reject (ownerId callerId : Int)
    (h : callerId ≠ ownerId) :
    ∀ name ∈ ["sendmessage", "sendembed", "broadcast", "multisend"],
      dispatch ownerId callerId name =
        .rejected "❌ This command is restricted to the bot owner only." := by
  have hb : (callerId == ownerId) = false := beq_eq_false_iff_ne.mpr h
  intro name hn
  fin_cases hn <;> simp [dispatch, registeredCommands, hb, checkFailureResponse, owner_commands]

/-- `find?` skips a prefix on which the predicate fails everywhere. -/
theorem find?_append_none {α} {p : α → Bool} :
    ∀ {l₁ : List α} (l₂ : List α), (∀ a ∈ l₁, ¬ p a) → (l₁ ++ l₂).find? p = l₂.find? p
  | [], _, _ => rfl
  | a :: l₁, l₂, h => by
    rw [List.cons_append, List.find?_cons_of_neg _ (h a (List.mem_cons_self a l₁))]
    exact find?_append_none l₂ (fun x hx => h x (List.mem_cons_of_mem a hx))

/-- `findRow` through a key-preserving row map. -/
theorem findRow_map_keypres (db : List WebhookRow) (f : WebhookRow → WebhookRow)
    (hf : ∀ r, keyOf (f r) = keyOf r) (k : Int × String) :
    findRow (db.map f) k = (findRow db k).map f := by
  unfold findRow
  rw [List.find?_map f db]
  have : ((fun r => keyOf r == k) ∘ f) = (fun r => keyOf r == k) := by
    funext r
    simp only [Function.comp_apply, hf r]
  rw [this]

/-- C5: the upsert `setup_webhook` performs fully replaces any row at
the same `(server_id, service_name)` key: the surviving row is exactly
the fresh one (enabled, null marker, the new `ping_role_id` — the old
one cannot leak through), the key holds exactly one row afterwards, and
the at-most-one-row-per-key invariant is preserved for every key. -/
theorem C5_upsert_replaces (db : List WebhookRow) (g cid : Int) (url s : String) (pr : Option Int) :
    findRow (upsertWebhook db g cid url s pr) (g, s) = some ⟨g, cid, url, s, pr, true, none⟩
    ∧ countKey (upsertWebhook db g cid url s pr) (g, s) = 1
    ∧ ∀ k, countKey db k ≤ 1 → countKey (upsertWebhook db g cid url s pr) k ≤ 1 := by
  have hmem : ∀ a ∈ db.filter (fun r => ¬(keyOf r = (g, s))), ¬(keyOf a == (g, s)) = true := by
    intro a ha
    have h2 := (List.mem_filter.mp ha).2
    simp only [decide_not, Bool.not_eq_true', decide_eq_false_iff_not] at h2
    simp only [beq_iff_eq]
    exact h2
  have h1 : findRow (upsertWebhook db g cid url s pr) (g, s) = some ⟨g, cid, url, s, pr, true, none⟩ := by
    unfold upsertWebhook findRow
    rw [find?_append_none _ hmem, List.find?_cons_of_pos]
    simp [keyOf]
  have h2 : countKey (upsertWebhook db g cid url s pr) (g, s) = 1 := by
    unfold upsertWebhook countKey
    rw [List.filter_append]
    have : (db.filter (fun r => ¬(keyOf r = (g, s)))).filter (fun r => keyOf r == (g, s)) = [] := by
      rw [List.filter_eq_nil_iff]
      exact hmem
    rw [this]
    simp [keyOf]
  refine ⟨h1, h2, ?_⟩
  intro k hk
  by_cases hks : k = (g, s)
  · subst hks
    rw [h2]
  · unfold upsertWebhook countKey
    rw [List.filter_append]
    have hnew : ([(⟨g, cid, url, s, pr, true, none⟩ : WebhookRow)].filter (fun r => keyOf r == k)) = [] := by
      rw [List.filter_eq_nil_iff]
      intro a ha
      rw [List.mem_singleton] at ha
      subst ha
      simp only [beq_iff_eq, keyOf]
      exact fun hh => hks hh.symm
    rw [hnew, List.append_nil]
    calc ((db.filter (fun r => ¬(keyOf r = (g, s)))).filter (fun r => keyOf r == k)).length
        ≤ (db.filter (fun r => keyOf r == k)).length :=
          (((List.filter_sublist db).filter _)).length_le
      _ ≤ 1 := hk

/-- C5 witness: upserting over an existing row with a role set, passing
no role, leaves exactly the fresh row — the old `ping_role_id` and
`last_incident_id` are gone. -/
theorem C5_upsert_replaces_witness :
    countKey [(⟨1, 5, "old", "vercel", some 9, true, some "inc-1"⟩ : WebhookRow)] (1, "vercel") ≤ 1
    ∧ findRow (upsertWebhook [⟨1, 5, "old", "vercel", some 9, true, some "inc-1"⟩] 1 6 "new" "vercel" none) (1, "vercel")
        = some ⟨1, 6, "new", "vercel", none, true, none⟩
    ∧ countKey (upsertWebhook [⟨1, 5, "old", "vercel", some 9, true, some "inc-1"⟩] 1 6 "new" "vercel" none) (1, "vercel") = 1 :=
  ⟨by decide,
   (C5_upsert_replaces [⟨1, 5, "old", "vercel", some 9, true, some "inc-1"⟩] 1 6 "new" "vercel" none).1,
   (C5_upsert_replaces [⟨1, 5, "old", "vercel", some 9, true, some "inc-1"⟩] 1 6 "new" "vercel" none).2.1⟩

/-- C10: toggling an existing subscription flips only its `enabled`
field — the same row with `guild_id`, `channel_id`, `webhook_url`,
`service`, `ping_role_id` and `last_incident_id` untouched — keeps all
rows at other keys, and changes the row count of nothing; with no row
at the key, the table is returned untouched with the not-found reply. -/
theorem C10_toggle_frame (db : List WebhookRow) (g : Int) (s : String) :
    (findRow db (g, s) = none → toggle_webhook db g s = (db, notFoundMsg s))
    ∧ ∀ r, findRow db (g, s) = some r →
        (toggle_webhook db g s).2 = toggledMsg s (!r.enabled)
        ∧ findRow (toggle_webhook db g s).1 (g, s) = some { r with enabled := !r.enabled }
        ∧ (toggle_webhook db g s).1.length = db.length
        ∧ ∀ x ∈ db, keyOf x ≠ (g, s) → x ∈ (toggle_webhook db g s).1 := by
  constructor
  · intro h
    unfold toggle_webhook
    rw [h]
  · intro r hr
    have hkey : keyOf r = (g, s) := by
      have := List.find?_some hr
      simpa [beq_iff_eq] using this
    have htog : toggle_webhook db g s =
        (db.map (fun x => if keyOf x = (g, s) then { x with enabled := !r.enabled } else x),
         toggledMsg s (!r.enabled)) := by
      unfold toggle_webhook
      rw [hr]
    rw [htog]
    have hf : ∀ x, keyOf (if keyOf x = (g, s) then { x with enabled := !r.enabled } else x) = keyOf x := by
      intro x
      by_cases h : keyOf x = (g, s)
      · rw [if_pos h]
        rfl
      · rw [if_neg h]
    refine ⟨rfl, ?_, List.length_map _ _, ?_⟩
    · rw [findRow_map_keypres db _ hf, hr]
      simp [hkey]
    · intro x hx hkx
      exact List.mem_map.mpr ⟨x, hx, if_neg hkx⟩

/-- C10 witness: toggling the only row flips `enabled` and nothing
else; toggling a key with no row returns the table unchanged with the
not-found reply. -/
theorem C10_toggle_frame_witness :
    findRow [(⟨1, 2, "u", "vercel", some 7, true, some "inc-9"⟩ : WebhookRow)] (1, "vercel")
      = some ⟨1, 2, "u", "vercel", some 7, true, some "inc-9"⟩
    ∧ (toggle_webhook [⟨1, 2, "u", "vercel", some 7, true, some "inc-9"⟩] 1 "vercel").2
        = toggledMsg "vercel" false
    ∧ findRow (toggle_webhook [⟨1, 2, "u", "vercel", some 7, true, some "inc-9"⟩] 1 "vercel").1 (1, "vercel")
        = some ⟨1, 2, "u", "vercel", some 7, false, some "inc-9"⟩
    ∧ toggle_webhook [(⟨1, 2, "u", "vercel", some 7, true, some "inc-9"⟩ : WebhookRow)] 2 "vercel"
        = ([⟨1, 2, "u", "vercel", some 7, true, some "inc-9"⟩], notFoundMsg "vercel") := by
  have h := (C10_toggle_frame [⟨1, 2, "u", "vercel", some 7, true, some "inc-9"⟩] 1 "vercel").2
    ⟨1, 2, "u", "vercel", some 7, true, some "inc-9"⟩ rfl
  exact ⟨rfl, h.1, h.2.1,
    (C10_toggle_frame [⟨1, 2, "u", "vercel", some 7, true, some "inc-9"⟩] 2 "vercel").1 rfl⟩

/-- C7: `sendmessage` with `count = 5`, `delay = 0`: if every send is
accepted, exactly 5 sends are attempted, all succeed and no sleep is
performed; if the sends are accepted up to index `j` and attempt `j`
raises a permission error, the loop stops there — `j + 1` attempts,
`j` successes, one failure, and the remaining sends never happen. -/
theorem C7_sendmessage_loop (env : Nat → SendOutcome) :
    ((∀ i, i < 5 → env i = .ok) →
      send_message env 5 0 = .ran ⟨5, 5, 0, []⟩)
    ∧ (∀ j, j < 5 → env j = .forbidden → (∀ i, i < j → env i = .ok) →
      send_message env 5 0 = .ran ⟨j + 1, j, 1, []⟩) := by
  have h5 : (5 : Int).toNat = 5 := rfl
  have hs : send_message env 5 0 = .ran (sendLoopAux env 5 0 (List.range 5)) := by
    norm_num [send_message, h5]
  have hrange : List.range 5 = [0, 1, 2, 3, 4] := rfl
  constructor
  · intro h
    rw [hs, hrange]
    simp [sendLoopAux, h 0 (by norm_num), h 1 (by norm_num), h 2 (by norm_num),
      h 3 (by norm_num), h 4 (by norm_num)]
  · intro j hj hf hprev
    rw [hs, hrange]
    interval_cases j
    · simp [sendLoopAux, hf]
    · simp [sendLoopAux, hf, hprev 0 (by norm_num)]
    · simp [sendLoopAux, hf, hprev 0 (by norm_num), hprev 1 (by norm_num)]
    · simp [sendLoopAux, hf, hprev 0 (by norm_num), hprev 1 (by norm_num), hprev 2 (by norm_num)]
    · simp [sendLoopAux, hf, hprev 0 (by norm_num), hprev 1 (by norm_num), hprev 2 (by norm_num),
        hprev 3 (by norm_num)]

/-- C7 witness: with sends 0 and 1 accepted and send 2 denied, the
count-5, delay-0 loop stops after 3 attempts with 2 sent and 1 failed
and never sleeps. -/
theorem C7_sendmessage_loop_witness :
    (fun i => if i < 2 then SendOutcome.ok else SendOutcome.forbidden) 2 = SendOutcome.forbidden
    ∧ send_message (fun i => if i < 2 then SendOutcome.ok else SendOutcome.forbidden) 5 0
        = .ran ⟨3, 2, 1, []⟩ := by
  have hprev : ∀ i, i < 2 → (fun i => if i < 2 then SendOutcome.ok else SendOutcome.forbidden) i = SendOutcome.ok := by
    intro i hi
    simp [hi]
  exact ⟨rfl, (C7_sendmessage_loop _).2 2 (by norm_num) rfl hprev⟩

/-- Binding a successful `Except` computation just applies the
continuation. -/
theorem exceptOkBind {ε α β : Type} (a : α) (f : α → Except ε β) :
    (do let x ← Except.ok a; f x) = f a := rfl

/-- C8: the renderer reads only the first 3 incidents — replacing the
incident list by its first three entries changes nothing — and a
rendered incident whose latest update text is non-empty shows that text
as-is when it has at most 200 characters and as its first 200
characters followed by `"..."` when longer. -/
theorem C8_incident_truncation :
    (∀ sname (data : ServiceData),
      create_status_embed sname { data with incidents := data.incidents.take 3 }
        = create_status_embed sname data)
    ∧ (∀ sname (data : ServiceData) (si : StatusInner) (d ind : String)
        (inc : Incident) (n stt u : String),
        data.status.status = some si → si.description = some d → si.indicator = some ind →
        data.incidents = [inc] → data.components = [] →
        inc.name = some n → inc.status = some stt →
        inc.incident_updates = some [⟨some u⟩] → u ≠ "" →
        ∃ e, create_status_embed sname data = .ok e ∧
          ("Recent Incidents", "**" ++ n ++ "** (" ++ stt ++ ")\n"
            ++ ((if u.length > 200 then u.take 200 ++ "..." else u) ++ "\n\n") ++ "") ∈ e.fields) := by
  constructor
  · intro sname data
    simp only [create_status_embed, List.take_take, min_self]
  · intro sname data si d ind inc n stt u hst hd hind hinc hcomp hn hstt hupd hne
    have hlu : latestUpdateBody inc = .ok u := by
      unfold latestUpdateBody
      rw [hupd]
      rfl
    have hblock : incidentBlock [inc] = .ok ("**" ++ n ++ "** (" ++ stt ++ ")\n"
        ++ ((if u.length > 200 then u.take 200 ++ "..." else u) ++ "\n\n") ++ "") := by
      simp only [incidentBlock, hlu, hn, hstt, Option.getD_some, exceptOkBind]
      rw [if_neg hne]
    have htake : data.incidents.take 3 = [inc] := by
      rw [hinc]
      rfl
    have hbad : data.components.filter (fun c => ¬(c.status = some "operational")) = [] := by
      rw [hcomp]
      rfl
    have hemb : create_status_embed sname data = .ok
        ⟨pyCapitalize sname ++ " Status", "**Overall Status:** " ++ d,
         if ind = "none" then 0x00ff00 else if ind = "minor" then 0xffff00 else 0xff0000,
         [("Recent Incidents", "**" ++ n ++ "** (" ++ stt ++ ")\n"
            ++ ((if u.length > 200 then u.take 200 ++ "..." else u) ++ "\n\n") ++ ""),
          ("Components", "All systems operational")]⟩ := by
      simp only [create_status_embed, hst, ofOption, hd, hind, exceptOkBind, htake, hbad, hblock]
      rfl
    exact ⟨_, hemb, List.mem_cons_self _ _⟩

set_option maxRecDepth 4096 in
/-- C8 witness: a 250-character update body is rendered as its first
200 characters plus the ellipsis marker. -/
theorem C8_incident_truncation_witness :
    (String.mk (List.replicate 250 'a')).length = 250
    ∧ String.mk (List.replicate 250 'a') ≠ ""
    ∧ ∃ e, create_status_embed "vercel"
        ⟨⟨some ⟨some "desc", some "minor"⟩⟩,
         [⟨some "i1", some "Outage", some "investigating",
           some [⟨some (String.mk (List.replicate 250 'a'))⟩]⟩], []⟩ = .ok e ∧
        ("Recent Incidents", "**" ++ "Outage" ++ "** (" ++ "investigating" ++ ")\n"
          ++ ((if (String.mk (List.replicate 250 'a')).length > 200
                then (String.mk (List.replicate 250 'a')).take 200 ++ "..."
                else String.mk (List.replicate 250 'a')) ++ "\n\n") ++ "") ∈ e.fields :=
  ⟨by decide, by decide,
   C8_incident_truncation.2 "vercel"
     ⟨⟨some ⟨some "desc", some "minor"⟩⟩,
      [⟨some "i1", some "Outage", some "investigating",
        some [⟨some (String.mk (List.replicate 250 'a'))⟩]⟩], []⟩
     ⟨some "desc", some "minor"⟩ "desc" "minor"
     ⟨some "i1", some "Outage", some "investigating",
      some [⟨some (String.mk (List.replicate 250 'a'))⟩]⟩
     "Outage" "investigating" (String.mk (List.replicate 250 'a'))
     rfl rfl rfl rfl rfl rfl rfl rfl (by decide)⟩

/-- A dict assignment leaves the assigned entry present. -/
theorem dictInsert_self (d : List (Int × String)) (k : Int) (v : String) :
    (k, v) ∈ dictInsert d k v := by
  unfold dictInsert
  by_cases h : d.any (fun p => p.1 == k)
  · rw [if_pos h]
    obtain ⟨p, hp, hpk⟩ := List.any_eq_true.mp h
    have hk : p.1 = k := by simpa [beq_iff_eq] using hpk
    exact List.mem_map.mpr ⟨p, hp, by rw [if_pos hk]⟩
  · rw [if_neg h]
    exact List.mem_append_right _ (List.mem_singleton.mpr rfl)

/-- A dict assignment preserves an entry unless it overwrites the same
key with a different value. -/
theorem dictInsert_preserve (d : List (Int × String)) (k k' : Int) (v v' : String)
    (hm : (k, v) ∈ d) (hv : k' = k → v' = v) :
    (k, v) ∈ dictInsert d k' v' := by
  unfold dictInsert
  by_cases h : d.any (fun p => p.1 == k')
  · rw [if_pos h]
    by_cases hk : k = k'
    · refine List.mem_map.mpr ⟨(k, v), hm, ?_⟩
      have h1 : ((k, v) : Int × String).1 = k' := hk
      rw [if_pos h1, hv hk.symm, ← hk]
    · exact List.mem_map.mpr ⟨(k, v), hm, if_neg hk⟩
  · rw [if_neg h]
    exact List.mem_append_left _ hm

/-- One step of the `multi_send` guild loop. -/
theorem msLoop_cons (resolve : Int → Option MSGuild) (count : Nat) (gid : Int)
    (rest : List Int) (st : MSState) :
    msLoop resolve count (gid :: rest) st =
      msLoop resolve count rest
        ⟨dictInsert st.results gid (msEntryValue resolve count gid),
         st.total_sent + (match resolve gid with
           | none => 0
           | some g => if g.hasChannel then (msInner g.send (List.range count)).1 else 0),
         st.total_failed + (match resolve gid with
           | none => count
           | some g => if g.hasChannel then (msInner g.send (List.range count)).2 else count)⟩ := by
  cases hr : resolve gid with
  | none => simp [msLoop, msEntryValue, hr]
  | some g =>
    by_cases hc : g.hasChannel
    · simp [msLoop, msEntryValue, hr, hc]
    · simp [msLoop, msEntryValue, hr, hc]

/-- Entries recording a gid's loop outcome survive the rest of the
loop. -/
theorem msLoop_mem_preserved (resolve : Int → Option MSGuild) (count : Nat) :
    ∀ (gids : List Int) (st : MSState) (k : Int),
      (k, msEntryValue resolve count k) ∈ st.results →
      (k, msEntryValue resolve count k) ∈ (msLoop resolve count gids st).results
  | [], _, _, h => h
  | gid :: rest, st, k, h => by
    rw [msLoop_cons]
    exact msLoop_mem_preserved resolve count rest _ k
      (dictInsert_preserve _ _ _ _ _ h (fun he => by rw [he]))

/-- Every listed id ends up with its outcome entry in `results`. -/
theorem msLoop_mem_of_mem (resolve : Int → Option MSGuild) (count : Nat) :
    ∀ (gids : List Int) (st : MSState) (gid : Int), gid ∈ gids →
      (gid, msEntryValue resolve count gid) ∈ (msLoop resolve count gids st).results
  | [], _, _, h => absurd h (List.not_mem_nil _)
  | g0 :: rest, st, gid, h => by
    rw [msLoop_cons]
    rcases List.mem_cons.mp h with h | h
    · subst h
      exact msLoop_mem_preserved resolve count rest _ gid (dictInsert_self _ _ _)
    · exact msLoop_mem_of_mem resolve count rest _ gid h

/-- The failure counter never decreases over the loop. -/
theorem msLoop_failed_mono (resolve : Int → Option MSGuild) (count : Nat) :
    ∀ (gids : List Int) (st : MSState),
      st.total_failed ≤ (msLoop resolve count gids st).total_failed
  | [], _ => le_refl _
  | gid :: rest, st => by
    rw [msLoop_cons]
    refine Nat.le_trans ?_ (msLoop_failed_mono resolve count rest
      ⟨dictInsert st.results gid (msEntryValue resolve count gid),
       st.total_sent + (match resolve gid with
         | none => 0
         | some g => if g.hasChannel then (msInner g.send (List.range count)).1 else 0),
       st.total_failed + (match resolve gid with
         | none => count
         | some g => if g.hasChannel then (msInner g.send (List.range count)).2 else count)⟩)
    exact Nat.le_add_right _ _

/-- An unresolvable id contributes its full `count` to the failure
counter. -/
theorem msLoop_failed_notfound (resolve : Int → Option MSGuild) (count : Nat) :
    ∀ (gids : List Int) (st : MSState) (gid : Int), gid ∈ gids → resolve gid = none →
      st.total_failed + count ≤ (msLoop resolve count gids st).total_failed
  | [], _, _, h, _ => absurd h (List.not_mem_nil _)
  | g0 :: rest, st, gid, h, hnf => by
    rw [msLoop_cons]
    rcases List.mem_cons.mp h with h | h
    · subst h
      simp only [hnf]
      exact msLoop_failed_mono resolve count rest
        ⟨dictInsert st.results gid (msEntryValue resolve count gid),
         st.total_sent + 0, st.total_failed + count⟩
    · refine Nat.le_trans ?_ (msLoop_failed_notfound resolve count rest
        ⟨dictInsert st.results g0 (msEntryValue resolve count g0),
         st.total_sent + (match resolve g0 with
           | none => 0
           | some g => if g.hasChannel then (msInner g.send (List.range count)).1 else 0),
         st.total_failed + (match resolve g0 with
           | none => count
           | some g => if g.hasChannel then (msInner g.send (List.range count)).2 else count)⟩
        gid h hnf)
      exact Nat.add_le_add_right (Nat.le_add_right st.total_failed _) count

/-- A guild whose sends all succeed scores one success per attempt and
no failure. -/
theorem msInner_all_ok (send : Nat → SendOutcome) :
    ∀ (l : List Nat), (∀ i ∈ l, send i = .ok) → msInner send l = (l.length, 0)
  | [], _ => rfl
  | i :: rest, h => by
    have hr := msInner_all_ok send rest (fun j hj => h j (List.mem_cons_of_mem i hj))
    simp [msInner, h i (List.mem_cons_self i rest), hr]

/-- C9: a `multisend` id list containing an id the bot cannot resolve
records the not-found entry for that id and charges its full `count` to
the failure total, while every other listed id is still processed: each
gets its own outcome entry, and a resolvable guild with a usable
channel whose sends all succeed gets the full-success summary. -/
theorem C9_multisend_not_found (resolve : Int → Option MSGuild) (count : Nat)
    (gids : List Int) (x : Int) (hx : x ∈ gids) (hnf : resolve x = none) :
    (x, notFoundEntry) ∈ (multi_send resolve count gids).results
    ∧ (∀ g ∈ gids, ∃ m, (g, m) ∈ (multi_send resolve count gids).results)
    ∧ count ≤ (multi_send resolve count gids).total_failed
    ∧ (∀ y gy, y ∈ gids → resolve y = some gy → gy.hasChannel = true →
        (∀ i, i < count → gy.send i = .ok) →
        (y, msGuildMsg gy count 0 count) ∈ (multi_send resolve count gids).results) := by
  refine ⟨?_, ?_, ?_, ?_⟩
  · have h := msLoop_mem_of_mem resolve count gids ⟨[], 0, 0⟩ x hx
    rw [msEntryValue, hnf] at h
    exact h
  · intro g hg
    exact ⟨msEntryValue resolve count g, msLoop_mem_of_mem resolve count gids ⟨[], 0, 0⟩ g hg⟩
  · simpa using msLoop_failed_notfound resolve count gids ⟨[], 0, 0⟩ x hx hnf
  · intro y gy hy hres hchan hok
    have h := msLoop_mem_of_mem resolve count gids ⟨[], 0, 0⟩ y hy
    have hinner : msInner gy.send (List.range count) = (count, 0) := by
      rw [msInner_all_ok gy.send (List.range count)
        (fun i hi => hok i (List.mem_range.mp hi)), List.length_range]
    rw [msEntryValue, hres] at h
    simp only [hchan, if_true, hinner] at h
    exact h

/-- C9 witness: ids `[1, 2, 3]` with id 2 unresolvable — 2 is reported
not found and counted failed, while 1 and 3 still get their successful
summaries. -/
theorem C9_multisend_not_found_witness :
    (2 : Int) ∈ [(1 : Int), 2, 3]
    ∧ (2, notFoundEntry) ∈ (multi_send (fun gid => if gid = 2 then none else some ⟨"G", true, fun _ => .ok⟩) 1 [1, 2, 3]).results
    ∧ 1 ≤ (multi_send (fun gid => if gid = 2 then none else some ⟨"G", true, fun _ => .ok⟩) 1 [1, 2, 3]).total_failed
    ∧ (1, msGuildMsg ⟨"G", true, fun _ => .ok⟩ 1 0 1) ∈ (multi_send (fun gid => if gid = 2 then none else some ⟨"G", true, fun _ => .ok⟩) 1 [1, 2, 3]).results := by
  have h := C9_multisend_not_found (fun gid => if gid = 2 then none else some ⟨"G", true, fun _ => .ok⟩)
    1 [1, 2, 3] 2 (by simp) (by simp)
  exact ⟨by simp, h.1, h.2.2.1, h.2.2.2 1 ⟨"G", true, fun _ => .ok⟩ (by simp) (by norm_num) rfl (fun i _ => rfl)⟩

/-- Updating the marker leaves every row's key unchanged. -/
theorem keyOf_updateRow (k : Int × String) (lid : Option String) (r : WebhookRow) :
    keyOf (if keyOf r = k then { r with last_incident_id := lid } else r) = keyOf r := by
  by_cases h : keyOf r = k
  · rw [if_pos h]
    rfl
  · rw [if_neg h]

/-- With pairwise-distinct keys, looking a member row's key up finds
exactly that row. -/
theorem findRow_of_pairwise :
    ∀ (db : List WebhookRow), pairwiseKeys db → ∀ r ∈ db, findRow db (keyOf r) = some r
  | [], _, r, hr => absurd hr (List.not_mem_nil _)
  | a :: rest, hp, r, hr => by
    rcases List.mem_cons.mp hr with h | h
    · subst h
      unfold findRow
      rw [List.find?_cons_of_pos]
      simp
    · have hk : keyOf a ≠ keyOf r := (List.pairwise_cons.mp hp).1 r h
      unfold findRow
      rw [List.find?_cons_of_neg]
      · exact findRow_of_pairwise rest (List.pairwise_cons.mp hp).2 r h
      · simpa [beq_iff_eq] using hk

/-- A marker update at one key does not change lookups at other keys. -/
theorem findRow_update_ne (db : List WebhookRow) (k k' : Int × String) (lid : Option String)
    (h : k' ≠ k) :
    findRow (dbUpdateLastIncident db k lid) k' = findRow db k' := by
  unfold dbUpdateLastIncident
  rw [findRow_map_keypres db _ (keyOf_updateRow k lid) k']
  cases hf : findRow db k' with
  | none => rfl
  | some r =>
    have hk : keyOf r = k' := by simpa [beq_iff_eq] using List.find?_some hf
    rw [Option.map_some']
    rw [if_neg (by rw [hk]; exact h)]

/-- A marker update at a key rewrites exactly the row found there. -/
theorem findRow_update_self (db : List WebhookRow) (k : Int × String) (lid : Option String) :
    findRow (dbUpdateLastIncident db k lid) k
      = (findRow db k).map (fun r => { r with last_incident_id := lid }) := by
  unfold dbUpdateLastIncident
  rw [findRow_map_keypres db _ (keyOf_updateRow k lid) k]
  cases hf : findRow db k with
  | none => rfl
  | some r =>
    have hk : keyOf r = k := by simpa [beq_iff_eq] using List.find?_some hf
    rw [Option.map_some']
    rw [if_pos hk]
    rfl

/-- Marker updates preserve the primary-key invariant. -/
theorem pairwiseKeys_update (db : List WebhookRow) (k : Int × String) (lid : Option String)
    (h : pairwiseKeys db) : pairwiseKeys (dbUpdateLastIncident db k lid) := by
  unfold pairwiseKeys dbUpdateLastIncident
  rw [List.pairwise_map]
  exact h.imp (fun hab => by rwa [keyOf_updateRow, keyOf_updateRow])

/-- The tick's table survives with pairwise-distinct keys. -/
theorem tickAux_pairwise_db (env : TickEnv) :
    ∀ (cfgs db : List WebhookRow), pairwiseKeys db → pairwiseKeys (tickAux env cfgs db).db
  | [], db, h => h
  | cfg :: rest, db, h => by
    cases hp : processCfg env cfg with
    | renderError => simpa [tickAux, hp] using h
    | skip =>
      simp only [tickAux, hp]
      exact tickAux_pairwise_db env rest db h
    | postFailed =>
      simp only [tickAux, hp]
      exact tickAux_pairwise_db env rest db h
    | postAccepted lid =>
      simp only [tickAux, hp]
      exact tickAux_pairwise_db env rest _ (pairwiseKeys_update db (keyOf cfg) lid h)

/-- If no processed config at a key got its POST accepted, the row at
that key is untouched by the tick. -/
theorem tickAux_db_frame (env : TickEnv) (k : Int × String) :
    ∀ (cfgs db : List WebhookRow),
      (∀ c ∈ cfgs, keyOf c = k → ∀ lid, processCfg env c ≠ .postAccepted lid) →
      findRow (tickAux env cfgs db).db k = findRow db k
  | [], _, _ => rfl
  | cfg :: rest, db, h => by
    have hrest : ∀ c ∈ rest, keyOf c = k → ∀ lid, processCfg env c ≠ .postAccepted lid :=
      fun c hc => h c (List.mem_cons_of_mem cfg hc)
    cases hp : processCfg env cfg with
    | renderError => simp [tickAux, hp]
    | skip =>
      simp only [tickAux, hp]
      exact tickAux_db_frame env k rest db hrest
    | postFailed =>
      simp only [tickAux, hp]
      exact tickAux_db_frame env k rest db hrest
    | postAccepted lid =>
      simp only [tickAux, hp]
      rw [tickAux_db_frame env k rest _ hrest]
      by_cases hk : keyOf cfg = k
      · exact absurd hp (h cfg (List.mem_cons_self _ _) hk lid)
      · exact findRow_update_ne db (keyOf cfg) k lid (fun he => hk he.symm)

/-- Every fetch a tick performs belongs to one of the processed
configs. -/
theorem tickAux_fetches_sub (env : TickEnv) (k : Int × String) :
    ∀ (cfgs db : List WebhookRow), k ∈ (tickAux env cfgs db).fetches → ∃ c ∈ cfgs, keyOf c = k
  | [], _, h => absurd h (List.not_mem_nil _)
  | cfg :: rest, db, h => by
    cases hp : processCfg env cfg with
    | renderError =>
      simp only [tickAux, hp] at h
      rw [List.mem_singleton] at h
      exact ⟨cfg, List.mem_cons_self _ _, h.symm⟩
    | skip =>
      simp only [tickAux, hp, List.mem_cons] at h
      rcases h with h | h
      · exact ⟨cfg, List.mem_cons_self _ _, h.symm⟩
      · obtain ⟨c, hc, hck⟩ := tickAux_fetches_sub env k rest db h
        exact ⟨c, List.mem_cons_of_mem _ hc, hck⟩
    | postFailed =>
      simp only [tickAux, hp, List.mem_cons] at h
      rcases h with h | h
      · exact ⟨cfg, List.mem_cons_self _ _, h.symm⟩
      · obtain ⟨c, hc, hck⟩ := tickAux_fetches_sub env k rest db h
        exact ⟨c, List.mem_cons_of_mem _ hc, hck⟩
    | postAccepted lid =>
      simp only [tickAux, hp, List.mem_cons] at h
      rcases h with h | h
      · exact ⟨cfg, List.mem_cons_self _ _, h.symm⟩
      · obtain ⟨c, hc, hck⟩ := tickAux_fetches_sub env k rest _ h
        exact ⟨c, List.mem_cons_of_mem _ hc, hck⟩

/-- Every POST a tick attempts belongs to a processed config that did
not skip (and did not raise while rendering). -/
theorem tickAux_posts_sub (env : TickEnv) (k : Int × String) (b : Bool) :
    ∀ (cfgs db : List WebhookRow), (k, b) ∈ (tickAux env cfgs db).posts →
      ∃ c ∈ cfgs, keyOf c = k ∧ processCfg env c ≠ .skip ∧ processCfg env c ≠ .renderError
  | [], _, h => absurd h (List.not_mem_nil _)
  | cfg :: rest, db, h => by
    cases hp : processCfg env cfg with
    | renderError =>
      simp only [tickAux, hp] at h
      exact absurd h (List.not_mem_nil _)
    | skip =>
      simp only [tickAux, hp] at h
      obtain ⟨c, hc, hck, hs⟩ := tickAux_posts_sub env k b rest db h
      exact ⟨c, List.mem_cons_of_mem _ hc, hck, hs⟩
    | postFailed =>
      simp only [tickAux, hp, List.mem_cons] at h
      rcases h with h | h
      · have hk : keyOf cfg = k := (congrArg Prod.fst h).symm
        refine ⟨cfg, List.mem_cons_self _ _, hk, ?_, ?_⟩ <;> simp [hp]
      · obtain ⟨c, hc, hck, hs⟩ := tickAux_posts_sub env k b rest db h
        exact ⟨c, List.mem_cons_of_mem _ hc, hck, hs⟩
    | postAccepted lid =>
      simp only [tickAux, hp, List.mem_cons] at h
      rcases h with h | h
      · have hk : keyOf cfg = k := (congrArg Prod.fst h).symm
        refine ⟨cfg, List.mem_cons_self _ _, hk, ?_, ?_⟩ <;> simp [hp]
      · obtain ⟨c, hc, hck, hs⟩ := tickAux_posts_sub env k b rest _ h
        exact ⟨c, List.mem_cons_of_mem _ hc, hck, hs⟩

/-- Counting accepted deliveries, one entry at a time. -/
theorem countAccepted_cons (p : (Int × String) × Bool) (ps : List ((Int × String) × Bool))
    (k : Int × String) :
    countAccepted (p :: ps) k
      = (if p.1 = k ∧ p.2 = true then 1 else 0) + countAccepted ps k := by
  unfold countAccepted
  rw [List.filter_cons]
  by_cases h : p.1 = k ∧ p.2 = true
  · rw [if_pos h, if_pos (by simp [beq_iff_eq, h.1, h.2])]
    simp [Nat.add_comm]
  · rw [if_neg h, if_neg (by simpa [beq_iff_eq, and_comm] using fun h2 h1 => h ⟨h1, h2⟩)]
    simp

/-- No accepted-delivery entry for a key means a zero count. -/
theorem countAccepted_zero_of_not_mem (ps : List ((Int × String) × Bool)) (k : Int × String)
    (h : (k, true) ∉ ps) : countAccepted ps k = 0 := by
  unfold countAccepted
  rw [List.length_eq_zero, List.filter_eq_nil_iff]
  intro p hp hpk
  have h1 : p.1 = k := by
    have := (Bool.and_eq_true _ _).mp hpk
    exact beq_iff_eq.mp this.1
  have h2 : p.2 = true := by
    have := (Bool.and_eq_true _ _).mp hpk
    exact beq_iff_eq.mp this.2
  have : p = (k, true) := Prod.ext h1 h2
  exact h (this ▸ hp)

/-- A positive accepted count exhibits an accepted entry. -/
theorem countAccepted_pos_mem (ps : List ((Int × String) × Bool)) (k : Int × String)
    (h : countAccepted ps k ≠ 0) : (k, true) ∈ ps := by
  by_contra hc
  exact h (countAccepted_zero_of_not_mem ps k hc)

/-- Over configs with pairwise-distinct keys, a tick accepts at most
one delivery per key. -/
theorem tickAux_count_le_one (env : TickEnv) (k : Int × String) :
    ∀ (cfgs db : List WebhookRow),
      cfgs.Pairwise (fun a b => keyOf a ≠ keyOf b) →
      countAccepted (tickAux env cfgs db).posts k ≤ 1
  | [], _, _ => by simp [tickAux, countAccepted, List.filter]
  | cfg :: rest, db, hp => by
    have hhead := (List.pairwise_cons.mp hp).1
    have htail := (List.pairwise_cons.mp hp).2
    cases hpc : processCfg env cfg with
    | renderError => simp [tickAux, hpc, countAccepted, List.filter]
    | skip =>
      simp only [tickAux, hpc]
      exact tickAux_count_le_one env k rest db htail
    | postFailed =>
      simp only [tickAux, hpc, countAccepted_cons]
      have : ¬(((keyOf cfg, false) : (Int × String) × Bool).1 = k
          ∧ ((keyOf cfg, false) : (Int × String) × Bool).2 = true) := by
        rintro ⟨-, h2⟩
        exact Bool.false_ne_true h2
      rw [if_neg this, Nat.zero_add]
      exact tickAux_count_le_one env k rest db htail
    | postAccepted lid =>
      simp only [tickAux, hpc, countAccepted_cons]
      by_cases hk : keyOf cfg = k
      · rw [if_pos (by exact ⟨hk, by trivial⟩)]
        have hz : countAccepted (tickAux env rest (dbUpdateLastIncident db (keyOf cfg) lid)).posts k = 0 := by
          apply countAccepted_zero_of_not_mem
          intro hmem
          obtain ⟨c, hc, hck, -⟩ := tickAux_posts_sub env k true rest _ hmem
          exact hhead c hc (by rw [hk, hck])
        rw [hz]
      · rw [if_neg (fun hh => hk hh.1), Nat.zero_add]
        exact tickAux_count_le_one env k rest _ htail

/-- An accepted delivery at a key identifies the unique config that
produced it, and pins the row at that key in the tick's output table to
the marker that config's POST confirmed. -/
theorem tickAux_accepted_inv (env : TickEnv) (k : Int × String) :
    ∀ (cfgs db : List WebhookRow),
      cfgs.Pairwise (fun a b => keyOf a ≠ keyOf b) →
      (k, true) ∈ (tickAux env cfgs db).posts →
      ∃ c ∈ cfgs, keyOf c = k ∧ ∃ lid, processCfg env c = .postAccepted lid ∧
        findRow (tickAux env cfgs db).db k
          = (findRow db k).map (fun r => { r with last_incident_id := lid })
  | [], _, _, h => absurd h (List.not_mem_nil _)
  | cfg :: rest, db, hp, h => by
    have hhead := (List.pairwise_cons.mp hp).1
    have htail := (List.pairwise_cons.mp hp).2
    cases hpc : processCfg env cfg with
    | renderError =>
      simp only [tickAux, hpc] at h
      exact absurd h (List.not_mem_nil _)
    | skip =>
      simp only [tickAux, hpc] at h ⊢
      obtain ⟨c, hc, hck, lid, hplid, hfr⟩ := tickAux_accepted_inv env k rest db htail h
      exact ⟨c, List.mem_cons_of_mem _ hc, hck, lid, hplid, hfr⟩
    | postFailed =>
      simp only [tickAux, hpc, List.mem_cons] at h
      rcases h with h | h
      · exact absurd (congrArg Prod.snd h) (by simp)
      · simp only [tickAux, hpc]
        obtain ⟨c, hc, hck, lid, hplid, hfr⟩ := tickAux_accepted_inv env k rest db htail h
        exact ⟨c, List.mem_cons_of_mem _ hc, hck, lid, hplid, hfr⟩
    | postAccepted lid =>
      simp only [tickAux, hpc, List.mem_cons] at h ⊢
      rcases h with h | h
      · have hk : keyOf cfg = k := (congrArg Prod.fst h).symm
        refine ⟨cfg, Or.inl rfl, hk, lid, hpc, ?_⟩
        have hframe : ∀ c ∈ rest, keyOf c = k → ∀ l, processCfg env c ≠ .postAccepted l := by
          intro c hc hck l hcon
          exact hhead c hc (by rw [hk, hck])
        rw [tickAux_db_frame env k rest _ hframe, ← hk]
        exact findRow_update_self db (keyOf cfg) lid
      · obtain ⟨c, hc, hck, lid2, hplid, hfr⟩ := tickAux_accepted_inv env k rest _ htail h
        have hkne : keyOf cfg ≠ k := fun he => hhead c hc (by rw [he, hck])
        refine ⟨c, Or.inr hc, hck, lid2, hplid, ?_⟩
        rw [hfr, findRow_update_ne db (keyOf cfg) k lid (fun he => hkne he.symm)]

/-- A config whose newest incident id equals its stored marker is
skipped: no render, no POST, no write. -/
theorem processCfg_skip_of_same (env : TickEnv) (c : WebhookRow) (data : ServiceData)
    (latest : Incident) (t : List Incident)
    (hf : env.fetch c.service = some data) (hi : data.incidents = latest :: t)
    (he : latest.id = c.last_incident_id) : processCfg env c = .skip := by
  unfold processCfg
  simp only [hf, hi]
  rw [if_pos he]

/-- A config with a new newest incident id and a rendering that
succeeds POSTs, and the marker is written exactly when the POST
returns 204. -/
theorem processCfg_of_new (env : TickEnv) (c : WebhookRow) (data : ServiceData)
    (latest : Incident) (t : List Incident) (e : Embed)
    (hf : env.fetch c.service = some data) (hi : data.incidents = latest :: t)
    (hne : latest.id ≠ c.last_incident_id)
    (hr : create_status_embed c.service data = .ok e) :
    processCfg env c
      = (if env.post c.webhook_url = some 204 then .postAccepted latest.id else .postFailed) := by
  unfold processCfg
  simp only [hf, hi, hr]
  rw [if_neg hne]

/-- When every fetched snapshot renders, no config processing aborts
the tick. -/
theorem processCfg_ne_renderError (env : TickEnv)
    (Hre : ∀ sname d, env.fetch sname = some d → ∃ e, create_status_embed sname d = .ok e) :
    ∀ c, processCfg env c ≠ .renderError := by
  intro c
  unfold processCfg
  cases hf : env.fetch c.service with
  | none => simp [hf]
  | some data =>
    simp only [hf]
    cases hi : data.incidents with
    | nil => simp [hi]
    | cons latest t =>
      simp only [hi]
      by_cases he : latest.id = c.last_incident_id
      · simp [if_pos he]
      · rw [if_neg he]
        obtain ⟨e, hre⟩ := Hre c.service data hf
        simp only [hre]
        by_cases hp : env.post c.webhook_url = some 204
        · simp [if_pos hp]
        · simp [if_neg hp]

/-- What an accepted POST implies about the config: a fetched snapshot
with a new newest incident whose id is the written marker, and a 204
response. -/
theorem processCfg_postAccepted_inv (env : TickEnv) (c : WebhookRow) (lid : Option String)
    (h : processCfg env c = .postAccepted lid) :
    ∃ data latest t, env.fetch c.service = some data ∧ data.incidents = latest :: t ∧
      latest.id = lid ∧ latest.id ≠ c.last_incident_id ∧ env.post c.webhook_url = some 204 := by
  unfold processCfg at h
  cases hf : env.fetch c.service with
  | none =>
    simp only [hf] at h
    simp at h
  | some data =>
    simp only [hf] at h
    cases hi : data.incidents with
    | nil =>
      simp only [hi] at h
      simp at h
    | cons latest t =>
      simp only [hi] at h
      by_cases he : latest.id = c.last_incident_id
      · rw [if_pos he] at h
        simp at h
      · rw [if_neg he] at h
        cases hr : create_status_embed c.service data with
        | error a =>
          simp only [hr] at h
          simp at h
        | ok e =>
          simp only [hr] at h
          by_cases hp : env.post c.webhook_url = some 204
          · rw [if_pos hp] at h
            exact ⟨data, latest, t, rfl, hi, by injection h, he, hp⟩
          · rw [if_neg hp] at h
            simp at h

/-- The fate of one enabled row across a tick, provided no processed
config aborts the loop: its marker is set to the newest incident id
exactly when its own POST was accepted, it is untouched otherwise, and
its accepted-delivery count is 1 exactly in the accepted case. -/
theorem tickAux_row_outcome (env : TickEnv) :
    ∀ (cfgs db : List WebhookRow) (row : WebhookRow),
      (∀ c ∈ cfgs, processCfg env c ≠ .renderError) →
      cfgs.Pairwise (fun a b => keyOf a ≠ keyOf b) →
      row ∈ cfgs →
      findRow db (keyOf row) = some row →
      findRow (tickAux env cfgs db).db (keyOf row) =
        some (match processCfg env row with
              | .postAccepted lid => { row with last_incident_id := lid }
              | _ => row)
      ∧ countAccepted (tickAux env cfgs db).posts (keyOf row) =
          (match processCfg env row with | .postAccepted _ => 1 | _ => 0)
  | [], _, row, _, _, hmem, _ => absurd hmem (List.not_mem_nil _)
  | cfg :: rest, db, row, hnre, hp, hmem, hfr => by
    have hhead := (List.pairwise_cons.mp hp).1
    have htail := (List.pairwise_cons.mp hp).2
    rcases List.mem_cons.mp hmem with hrw | hmem2
    · subst hrw
      have hframe : ∀ c ∈ rest, keyOf c = keyOf row → ∀ l, processCfg env c ≠ .postAccepted l := by
        intro c hc hck l hcon
        exact hhead c hc hck.symm
      have hnot : ∀ b, ((keyOf row, b)) ∉ (tickAux env rest (dbUpdateLastIncident db (keyOf row) (match processCfg env row with | .postAccepted l => l | _ => none))).posts ∧ True := fun _ => ⟨by
        intro hmem3
        obtain ⟨c, hc, hck, -, -⟩ := tickAux_posts_sub env (keyOf row) _ rest _ hmem3
        exact hhead c hc hck.symm, trivial⟩
      cases hpc : processCfg env row with
      | renderError => exact absurd hpc (hnre row (List.mem_cons_self _ _))
      | skip =>
        simp only [tickAux, hpc]
        constructor
        · rw [tickAux_db_frame env (keyOf row) rest db hframe]
          exact hfr
        · apply countAccepted_zero_of_not_mem
          intro hmem3
          obtain ⟨c, hc, hck, -, -⟩ := tickAux_posts_sub env (keyOf row) _ rest _ hmem3
          exact hhead c hc hck.symm
      | postFailed =>
        simp only [tickAux, hpc, countAccepted_cons]
        constructor
        · rw [tickAux_db_frame env (keyOf row) rest db hframe]
          exact hfr
        · rw [if_neg (by rintro ⟨-, h2⟩; simp at h2)]
          rw [Nat.zero_add]
          apply countAccepted_zero_of_not_mem
          intro hmem3
          obtain ⟨c, hc, hck, -, -⟩ := tickAux_posts_sub env (keyOf row) _ rest _ hmem3
          exact hhead c hc hck.symm
      | postAccepted lid =>
        simp only [tickAux, hpc, countAccepted_cons]
        constructor
        · rw [tickAux_db_frame env (keyOf row) rest _ hframe]
          rw [findRow_update_self db (keyOf row) lid, hfr]
          rfl
        · have hz : countAccepted (tickAux env rest (dbUpdateLastIncident db (keyOf row) lid)).posts (keyOf row) = 0 := by
            apply countAccepted_zero_of_not_mem
            intro hmem3
            obtain ⟨c, hc, hck, -, -⟩ := tickAux_posts_sub env (keyOf row) _ rest _ hmem3
            exact hhead c hc hck.symm
          simp [hz]
    · have hkne : keyOf cfg ≠ keyOf row := hhead row hmem2
      have hrec := tickAux_row_outcome env rest
      cases hpc : processCfg env cfg with
      | renderError => exact absurd hpc (hnre cfg (List.mem_cons_self _ _))
      | skip =>
        simp only [tickAux, hpc]
        exact hrec db row (fun c hc => hnre c (List.mem_cons_of_mem _ hc)) htail hmem2 hfr
      | postFailed =>
        simp only [tickAux, hpc, countAccepted_cons]
        have h2 := hrec db row (fun c hc => hnre c (List.mem_cons_of_mem _ hc)) htail hmem2 hfr
        refine ⟨h2.1, ?_⟩
        rw [if_neg (by rintro ⟨-, hb⟩; simp at hb), Nat.zero_add]
        exact h2.2
      | postAccepted lid =>
        simp only [tickAux, hpc, countAccepted_cons]
        have hfr2 : findRow (dbUpdateLastIncident db (keyOf cfg) lid) (keyOf row) = some row := by
          rw [findRow_update_ne db (keyOf cfg) (keyOf row) lid (fun he => hkne he.symm)]
          exact hfr
        have h2 := hrec _ row (fun c hc => hnre c (List.mem_cons_of_mem _ hc)) htail hmem2 hfr2
        refine ⟨h2.1, ?_⟩
        rw [if_neg (fun hh => hkne hh.1), Nat.zero_add]
        exact h2.2

/-- C1: for an enabled subscription whose fetched newest incident id
differs from its stored marker, and a tick in which every fetched
snapshot renders, the tick writes the newest id into the marker exactly
once when the POST returns the confirmed-accepted 204, and leaves the
marker unchanged (the incident will be retried next tick) on any other
outcome — a non-204 status or an exception during the POST. -/
theorem C1_marker_update_on_confirm (env : TickEnv) (db : List WebhookRow) (row : WebhookRow)
    (data : ServiceData) (latest : Incident) (t : List Incident)
    (Hp : pairwiseKeys db) (Hmem : row ∈ db) (Hen : row.enabled = true)
    (Hre : ∀ sname d, env.fetch sname = some d → ∃ e, create_status_embed sname d = .ok e)
    (Hf : env.fetch row.service = some data)
    (Hi : data.incidents = latest :: t)
    (Hne : latest.id ≠ row.last_incident_id) :
    findRow (tick env db).db (keyOf row)
      = some { row with last_incident_id :=
          (if env.post row.webhook_url = some 204 then latest.id else row.last_incident_id) }
    ∧ countAccepted (tick env db).posts (keyOf row)
      = (if env.post row.webhook_url = some 204 then 1 else 0) := by
  obtain ⟨e, hem⟩ := Hre row.service data Hf
  have hpc := processCfg_of_new env row data latest t e Hf Hi Hne hem
  have hmemf : row ∈ db.filter (fun r => r.enabled) := List.mem_filter.mpr ⟨Hmem, Hen⟩
  have hpw : (db.filter (fun r => r.enabled)).Pairwise (fun a b => keyOf a ≠ keyOf b) :=
    List.Pairwise.sublist (List.filter_sublist db) Hp
  have hfr : findRow db (keyOf row) = some row := findRow_of_pairwise db Hp row Hmem
  have hnre : ∀ c ∈ db.filter (fun r => r.enabled), processCfg env c ≠ .renderError :=
    fun c _ => processCfg_ne_renderError env Hre c
  have hmain := tickAux_row_outcome env (db.filter (fun r => r.enabled)) db row hnre hpw hmemf hfr
  by_cases hp : env.post row.webhook_url = some 204
  · simp only [hpc, if_pos hp] at hmain
    simp only [if_pos hp]
    exact hmain
  · simp only [hpc, if_neg hp] at hmain
    simp only [if_neg hp]
    exact hmain

/-- C1 witness: marker `inc-41`, newest fetched id `inc-42`, POST
confirmed with 204 — the stored marker becomes `inc-42`, exactly one
accepted delivery. -/
theorem C1_marker_update_on_confirm_witness :
    findRow (tick
        ⟨fun s => if s = "vercel"
            then some ⟨⟨some ⟨some "ok", some "none"⟩⟩,
              [⟨some "inc-42", some "Outage", some "investigating", some [⟨some "body"⟩]⟩], []⟩
            else none,
          fun _ => some 204⟩
        [⟨1, 2, "wh", "vercel", none, true, some "inc-41"⟩]).db (1, "vercel")
      = some ⟨1, 2, "wh", "vercel", none, true, some "inc-42"⟩
    ∧ countAccepted (tick
        ⟨fun s => if s = "vercel"
            then some ⟨⟨some ⟨some "ok", some "none"⟩⟩,
              [⟨some "inc-42", some "Outage", some "investigating", some [⟨some "body"⟩]⟩], []⟩
            else none,
          fun _ => some 204⟩
        [⟨1, 2, "wh", "vercel", none, true, some "inc-41"⟩]).posts (1, "vercel") = 1 := by
  have h := C1_marker_update_on_confirm
    ⟨fun s => if s = "vercel"
        then some ⟨⟨some ⟨some "ok", some "none"⟩⟩,
          [⟨some "inc-42", some "Outage", some "investigating", some [⟨some "body"⟩]⟩], []⟩
        else none,
      fun _ => some 204⟩
    [⟨1, 2, "wh", "vercel", none, true, some "inc-41"⟩]
    ⟨1, 2, "wh", "vercel", none, true, some "inc-41"⟩
    ⟨⟨some ⟨some "ok", some "none"⟩⟩,
      [⟨some "inc-42", some "Outage", some "investigating", some [⟨some "body"⟩]⟩], []⟩
    ⟨some "inc-42", some "Outage", some "investigating", some [⟨some "body"⟩]⟩ []
    (by simp [pairwiseKeys]) (List.mem_singleton.mpr rfl) rfl
    (by
      intro s d hsd
      dsimp only at hsd
      by_cases hs : s = "vercel"
      · rw [if_pos hs] at hsd
        subst hs
        rw [← Option.some.inj hsd]
        exact ⟨_, rfl⟩
      · rw [if_neg hs] at hsd
        exact absurd hsd (by simp))
    rfl rfl (by decide)
  exact h

/-- C2: if the newest fetched incident id equals the stored marker, the
tick attempts no webhook POST for that subscription and leaves its row
untouched; and across two consecutive ticks against the same
environment, at most one delivery per subscription key is accepted. -/
theorem C2_idempotent_no_duplicate (env : TickEnv) (db : List WebhookRow)
    (Hp : pairwiseKeys db) :
    (∀ (row : WebhookRow) (data : ServiceData) (latest : Incident) (t : List Incident),
      row ∈ db → row.enabled = true →
      env.fetch row.service = some data → data.incidents = latest :: t →
      latest.id = row.last_incident_id →
      (∀ b, ((keyOf row, b)) ∉ (tick env db).posts)
      ∧ findRow (tick env db).db (keyOf row) = some row)
    ∧ (∀ k, countAccepted (tick env db).posts k
        + countAccepted (tick env (tick env db).db).posts k ≤ 1) := by
  constructor
  · intro row data latest t Hmem Hen Hf Hi Heq
    have hpc : processCfg env row = .skip := processCfg_skip_of_same env row data latest t Hf Hi Heq
    have huniq : ∀ c ∈ db.filter (fun r => r.enabled), keyOf c = keyOf row → c = row := by
      intro c hc hck
      have h1 := findRow_of_pairwise db Hp c (List.mem_of_mem_filter hc)
      rw [hck] at h1
      have h2 := findRow_of_pairwise db Hp row Hmem
      rw [h1] at h2
      exact Option.some.inj h2
    constructor
    · intro b hb
      obtain ⟨c, hc, hck, hskip, -⟩ := tickAux_posts_sub env (keyOf row) b _ db hb
      exact hskip (by rw [huniq c hc hck]; exact hpc)
    · rw [show tick env db = tickAux env (db.filter (fun r => r.enabled)) db from rfl]
      rw [tickAux_db_frame env (keyOf row) _ db ?hframe]
      case hframe =>
        intro c hc hck lid hcon
        rw [huniq c hc hck, hpc] at hcon
        exact CfgResult.noConfusion hcon
      exact findRow_of_pairwise db Hp row Hmem
  · intro k
    have hpw1 : (db.filter (fun r => r.enabled)).Pairwise (fun a b => keyOf a ≠ keyOf b) :=
      List.Pairwise.sublist (List.filter_sublist db) Hp
    have hpw2 : pairwiseKeys (tick env db).db := tickAux_pairwise_db env _ db Hp
    by_cases h1 : countAccepted (tick env db).posts k = 0
    · rw [h1, Nat.zero_add]
      exact tickAux_count_le_one env k _ _
        (List.Pairwise.sublist (List.filter_sublist _) hpw2)
    · have hmem1 := countAccepted_pos_mem _ _ h1
      obtain ⟨c, hc, hck, lid, hpc, hupd⟩ := tickAux_accepted_inv env k _ db hpw1 hmem1
      have hle1 : countAccepted (tick env db).posts k ≤ 1 := tickAux_count_le_one env k _ db hpw1
      have hcd : c ∈ db := List.mem_of_mem_filter hc
      have hfrc : findRow db (keyOf c) = some c := findRow_of_pairwise db Hp c hcd
      rw [hck] at hfrc
      rw [hfrc, Option.map_some'] at hupd
      have hupd2 : findRow (tick env db).db k = some { c with last_incident_id := lid } := hupd
      obtain ⟨data, latest, t, hf, hi, hlid, hne, hpost⟩ := processCfg_postAccepted_inv env c lid hpc
      have h2 : countAccepted (tick env (tick env db).db).posts k = 0 := by
        apply countAccepted_zero_of_not_mem
        intro hmem2
        obtain ⟨c2, hc2, hck2, lid2, hpc2, -⟩ := tickAux_accepted_inv env k _ _
          (List.Pairwise.sublist (List.filter_sublist _) hpw2) hmem2
        have hc2d : c2 ∈ (tick env db).db := List.mem_of_mem_filter hc2
        have hfr2 : findRow (tick env db).db (keyOf c2) = some c2 :=
          findRow_of_pairwise _ hpw2 c2 hc2d
        rw [hck2, hupd2] at hfr2
        have hc2eq : c2 = { c with last_incident_id := lid } := (Option.some.inj hfr2).symm
        subst hc2eq
        have hskip : processCfg env { c with last_incident_id := lid } = .skip :=
          processCfg_skip_of_same env _ data latest t hf hi hlid
        rw [hskip] at hpc2
        exact CfgResult.noConfusion hpc2
      rw [h2]
      simpa using hle1

/-- C2 witness: with the newest fetched id equal to the stored marker,
the tick posts nothing and leaves the row as-is, and two consecutive
ticks accept at most one delivery for the key. -/
theorem C2_idempotent_no_duplicate_witness :
    (∀ b : Bool, (((1 : Int), "vercel"), b) ∉ (tick
        ⟨fun s => if s = "vercel"
            then some ⟨⟨some ⟨some "ok", some "none"⟩⟩,
              [⟨some "inc-41", some "Outage", some "investigating", some [⟨some "body"⟩]⟩], []⟩
            else none,
          fun _ => some 204⟩
        [⟨1, 2, "wh", "vercel", none, true, some "inc-41"⟩]).posts)
    ∧ findRow (tick
        ⟨fun s => if s = "vercel"
            then some ⟨⟨some ⟨some "ok", some "none"⟩⟩,
              [⟨some "inc-41", some "Outage", some "investigating", some [⟨some "body"⟩]⟩], []⟩
            else none,
          fun _ => some 204⟩
        [⟨1, 2, "wh", "vercel", none, true, some "inc-41"⟩]).db (1, "vercel")
      = some ⟨1, 2, "wh", "vercel", none, true, some "inc-41"⟩
    ∧ countAccepted (tick
        ⟨fun s => if s = "vercel"
            then some ⟨⟨some ⟨some "ok", some "none"⟩⟩,
              [⟨some "inc-41", some "Outage", some "investigating", some [⟨some "body"⟩]⟩], []⟩
            else none,
          fun _ => some 204⟩
        [⟨1, 2, "wh", "vercel", none, true, some "inc-41"⟩]).posts (1, "vercel")
      + countAccepted (tick
        ⟨fun s => if s = "vercel"
            then some ⟨⟨some ⟨some "ok", some "none"⟩⟩,
              [⟨some "inc-41", some "Outage", some "investigating", some [⟨some "body"⟩]⟩], []⟩
            else none,
          fun _ => some 204⟩
        (tick
        ⟨fun s => if s = "vercel"
            then some ⟨⟨some ⟨some "ok", some "none"⟩⟩,
              [⟨some "inc-41", some "Outage", some "investigating", some [⟨some "body"⟩]⟩], []⟩
            else none,
          fun _ => some 204⟩
        [⟨1, 2, "wh", "vercel", none, true, some "inc-41"⟩]).db).posts (1, "vercel") ≤ 1 := by
  have h := C2_idempotent_no_duplicate
    ⟨fun s => if s = "vercel"
        then some ⟨⟨some ⟨some "ok", some "none"⟩⟩,
          [⟨some "inc-41", some "Outage", some "investigating", some [⟨some "body"⟩]⟩], []⟩
        else none,
      fun _ => some 204⟩
    [⟨1, 2, "wh", "vercel", none, true, some "inc-41"⟩]
    (by simp [pairwiseKeys])
  have h1 := h.1 ⟨1, 2, "wh", "vercel", none, true, some "inc-41"⟩
    ⟨⟨some ⟨some "ok", some "none"⟩⟩,
      [⟨some "inc-41", some "Outage", some "investigating", some [⟨some "body"⟩]⟩], []⟩
    ⟨some "inc-41", some "Outage", some "investigating", some [⟨some "body"⟩]⟩ []
    (List.mem_singleton.mpr rfl) rfl rfl rfl rfl
  exact ⟨h1.1, h1.2, h.2 (1, "vercel")⟩

/-- C3: a disabled subscription is not processed by a tick: no status
fetch is performed for its key, and its row — every field of it — is
still present, unaltered, in the table afterwards. -/
theorem C3_disabled_untouched (env : TickEnv) (db : List WebhookRow) (row : WebhookRow)
    (Hp : pairwiseKeys db) (Hmem : row ∈ db) (Hdis : row.enabled = false) :
    keyOf row ∉ (tick env db).fetches
    ∧ findRow (tick env db).db (keyOf row) = some row := by
  have hkey : ∀ c ∈ db.filter (fun r => r.enabled), keyOf c ≠ keyOf row := by
    intro c hc
    have hcd : c ∈ db := List.mem_of_mem_filter hc
    have hcen : c.enabled = true := (List.mem_filter.mp hc).2
    have hne : c ≠ row := by
      intro he
      rw [he, Hdis] at hcen
      exact Bool.false_ne_true hcen
    exact List.Pairwise.forall (fun _ _ hab => Ne.symm hab) Hp hcd Hmem hne
  constructor
  · intro hmem
    obtain ⟨c, hc, hck⟩ := tickAux_fetches_sub env (keyOf row) _ db hmem
    exact hkey c hc hck
  · rw [show tick env db = tickAux env (db.filter (fun r => r.enabled)) db from rfl]
    rw [tickAux_db_frame env (keyOf row) _ db (fun c hc hck => absurd hck (hkey c hc))]
    exact findRow_of_pairwise db Hp row Hmem

/-- C3 witness: a disabled row's key is never fetched and the row
survives the tick bit-for-bit. -/
theorem C3_disabled_untouched_witness :
    ((1 : Int), "vercel") ∉ (tick ⟨fun _ => none, fun _ => none⟩
        [⟨1, 2, "wh", "vercel", some 9, false, some "inc-41"⟩]).fetches
    ∧ findRow (tick ⟨fun _ => none, fun _ => none⟩
        [⟨1, 2, "wh", "vercel", some 9, false, some "inc-41"⟩]).db (1, "vercel")
      = some ⟨1, 2, "wh", "vercel", some 9, false, some "inc-41"⟩ :=
  C3_disabled_untouched ⟨fun _ => none, fun _ => none⟩
    [⟨1, 2, "wh", "vercel", some 9, false, some "inc-41"⟩]
    ⟨1, 2, "wh", "vercel", some 9, false, some "inc-41"⟩
    (by simp [pairwiseKeys]) (List.mem_singleton.mpr rfl) rfl
